import Mathlib

/-!
Verification of the ABR (adaptive bitrate) decision engine
(`src/controller/abr-controller.js`): a shallow embedding of the
`AbrController` class and proofs about its level-selection query
(`nextAutoLevel`), the abandonment check (`abandonRulesCheck`), and the
event handlers (`onFragLoading`, `onFragLoaded`, `onError`).

JavaScript numbers are modelled as rationals (`ℚ`).  A JavaScript
expression that dereferences `undefined` (a `TypeError` at runtime) is
modelled by an error result that propagates: an out-of-range array access
`levels[i]` yields `undefined`, so reading `.bitrate` on it throws, and
every function on such a path returns an `Option`/`Except` error value.
A handler that has already mutated state before throwing (the lazy
estimator initialisation in `onFragLoading`) returns the
partially-mutated state in its `Except.error`.  Division by zero, which
JavaScript evaluates to a signed infinity or `NaN`, is modelled at each
comparison site by the comparison outcome those values produce. -/

namespace Abr

/-- Shape of `hls.levels[i].details` — only the `live` flag is consulted. -/
structure LevelDetails where
  live : Bool
deriving DecidableEq, Repr

/-- One entry of the quality ladder, `hls.levels[i]`.  `details` is
`undefined` until the level playlist loads, hence an `Option`. -/
structure Level where
  bitrate : ℚ
  details : Option LevelDetails := none
deriving DecidableEq, Repr

/-- Shape of `frag.loader.stats` — the loader's own stats object. -/
structure LoaderStats where
  aborted : Bool
deriving DecidableEq, Repr

/-- Shape of `frag.loader` — the network loader attached to an in-flight fragment;
`stats` may itself be `undefined`. -/
structure Loader where
  stats : Option LoaderStats := none
deriving DecidableEq, Repr

/-- The `frag.type` values the controller distinguishes: `'main'` and anything
else. -/
inductive FragType where
  | main
  | other
deriving DecidableEq, Repr

/-- A fragment (segment request), as read by the controller: level index,
type, duration (s), bytes loaded so far, request start time `trequest`
(ms), `loadCounter`, the auto-selection flag and the loader handle
(`none` when the loader has been destroyed). -/
structure Frag where
  level : ℕ
  fragType : FragType
  duration : ℚ
  loaded : ℚ
  trequest : ℚ
  loadCounter : ℕ
  autoLevel : Bool
  loader : Option Loader := none
deriving DecidableEq, Repr

/-- Shape of `data.stats` passed with the `FRAG_LOADED` event: `aborted` is
`undefined` (`none`) on a clean load, request start time and total bytes. -/
structure LoadStats where
  aborted : Option Bool
  trequest : ℚ
  loaded : ℚ
deriving DecidableEq, Repr

/-- The media element `hls.media`, as read by the controller. -/
structure Media where
  paused : Bool
  playbackRate : ℚ
  readyState : ℕ
  currentTime : ℚ
deriving DecidableEq, Repr

/-- The configuration fields the controller reads (`hls.config`). -/
structure Config where
  abrEwmaFastLive : ℚ
  abrEwmaSlowLive : ℚ
  abrEwmaFastVoD : ℚ
  abrEwmaSlowVoD : ℚ
  abrEwmaDefaultEstimate : ℚ
  maxBufferHole : ℚ
deriving DecidableEq, Repr

/-- Modelled from the spec: the EWMA bandwidth estimator
(`ewma-bandwidth-estimator.js`) is an external collaborator — only its
call sites are in `src/`.  Per the spec it records `(elapsedMs, bytes)`
samples, silently ignores non-positive elapsed times, and returns a
configured default estimate before any sample; its internal smoothing
formula is explicitly out of scope, so the current estimate is carried as
an abstract state component `estimateVal` (initialised to the default)
and the fed samples are recorded in `samples`. -/
structure EwmaBandWidthEstimator where
  slow : ℚ
  fast : ℚ
  defaultEstimate : ℚ
  samples : List (ℚ × ℚ) := []
  estimateVal : ℚ
deriving DecidableEq, Repr

/-- Modelled from the spec: `sample(elapsedMs, bytes)` "fails
silently/no-ops on non-positive elapsed time"; otherwise the sample is
recorded. -/
def EwmaBandWidthEstimator.sample (est : EwmaBandWidthEstimator)
    (elapsedMs bytes : ℚ) : EwmaBandWidthEstimator :=
  if 0 < elapsedMs then { est with samples := (elapsedMs, bytes) :: est.samples }
  else est

/-- Modelled from the spec: `getEstimate() -> bits_per_second` returns the
current (abstract) estimate. -/
def EwmaBandWidthEstimator.getEstimate (est : EwmaBandWidthEstimator) : ℚ :=
  est.estimateVal

/-- The mutable fields of `AbrController`: `lastLoadedFragLevel`,
`_autoLevelCapping`, `_nextAutoLevel` (the forced next level), the
interval timer (modelled as the number of live intervals, `0` = idle),
the lazily created estimator and the monitored fragment. -/
structure AbrState where
  lastLoadedFragLevel : ℕ
  autoLevelCapping : Int
  nextAutoLevelForced : Int
  timer : ℕ
  bwEstimator : Option EwmaBandWidthEstimator
  fragCurrent : Option Frag
deriving DecidableEq, Repr

/-- The constructor-time state of `AbrController`. -/
def initialState : AbrState :=
  { lastLoadedFragLevel := 0
    autoLevelCapping := -1
    nextAutoLevelForced := -1
    timer := 0
    bwEstimator := none
    fragCurrent := none }

/-- The external world the controller reads on a given activation:
the ladder `hls.levels`, `hls.media`, the end of the buffered range
containing the current position (the `BufferHelper.bufferInfo(...).end`
collaborator result), the current clock `performance.now()` and the
configuration. -/
structure Env where
  levels : List Level
  media : Option Media
  bufferEnd : ℚ
  now : ℚ
  config : Config
deriving DecidableEq, Repr

/-- Method `clearTimer()`: clear the interval if one is live; idempotent. -/
def clearTimer (s : AbrState) : AbrState :=
  if s.timer ≠ 0 then { s with timer := 0 } else s

/-- Value `maxAutoLevel` as computed at the top of the `nextAutoLevel` getter:
`levels.length - 1` when uncapped and the ladder is non-empty, otherwise
the raw capping value. -/
def maxAutoLevelOf (s : AbrState) (levels : List Level) : Int :=
  if s.autoLevelCapping = -1 ∧ levels.length ≠ 0 then (levels.length : Int) - 1
  else s.autoLevelCapping

/-- Position `pos = (v ? v.currentTime : 0)`. -/
def posOf (media : Option Media) : ℚ :=
  match media with
  | some v => v.currentTime
  | none => 0

/-- The selection query's playback rate: `|v.playbackRate|`, defaulting to
`1` when there is no media element or the rate is exactly `0`. -/
def playbackRateOf (media : Option Media) : ℚ :=
  match media with
  | some v => if v.playbackRate ≠ 0 then |v.playbackRate| else 1
  | none => 1

/-- Value `bufferStarvationDelay = (bufferInfo(...).end - pos) / playbackRate`
as computed in the `nextAutoLevel` getter. -/
def bufferStarvationDelayOf (e : Env) : ℚ :=
  (e.bufferEnd - posOf e.media) / playbackRateOf e.media

/-- Value `availableFetchTime = bufferStarvationDelay - 2 * frag.duration /
playbackRate`. -/
def availableFetchTimeOf (e : Env) (frag : Frag) : ℚ :=
  bufferStarvationDelayOf e - 2 * frag.duration / playbackRateOf e.media

/-- The comfortable-case loop body at index `i`: evaluate
`levels[i].bitrate * frag.duration / lastbw < availableFetchTime`.
An out-of-range `levels[i]` is `undefined`, so reading `.bitrate` throws a
`TypeError`: result `none`.  When `lastbw = 0`, JavaScript's `fetchTime`
is `+Infinity`, `-Infinity` or `NaN` by the sign of
`bitrate * duration`, and `fetchTime < availableFetchTime` (with finite
`availableFetchTime`) holds exactly for `-Infinity`, i.e. exactly when
`bitrate * duration < 0`. -/
def comfP (levels : List Level) (duration lastbw aft : ℚ) (i : ℕ) : Option Bool :=
  (levels.get? i).map fun l =>
    if lastbw = 0 then decide (l.bitrate * duration < 0)
    else decide (l.bitrate * duration / lastbw < aft)

/-- The recovery-case loop body at index `i`: evaluate
`0.5 * availableFetchTime + (frag.duration - fetchTime) > 0`.  Out of
range is a `TypeError` (`none`); when `lastbw = 0` the test holds exactly
for `fetchTime = -Infinity`, i.e. exactly when `bitrate * duration < 0`
(for `+Infinity` the sum is `-Infinity`, for `NaN` it is `NaN`; both
compare `false`). -/
def recovP (levels : List Level) (duration lastbw aft : ℚ) (i : ℕ) : Option Bool :=
  (levels.get? i).map fun l =>
    if lastbw = 0 then decide (l.bitrate * duration < 0)
    else decide (0 < (1 / 2 : ℚ) * aft + (duration - l.bitrate * duration / lastbw))

/-- Loop `for (let i = k; i >= 0; i--) { if p(i) return i }` for a start
index `k : ℕ`, where the body `p` may throw (`none`): the outer `none`
propagates the throw, `some (some i)` is a hit at the greatest passing
`i ≤ k`, `some none` means the loop ran to completion without a hit. -/
def scanDownE (p : ℕ → Option Bool) : ℕ → Option (Option ℕ)
  | 0 => (p 0).map fun b => if b then some 0 else none
  | k + 1 =>
    (p (k + 1)).bind fun b =>
      if b then some (some (k + 1)) else scanDownE p k

/-- The same loop with an `Int` start bound (as written in the source,
`maxAutoLevel` is an `Int` that may be negative, in which case the loop
body never runs and nothing can throw). -/
def scanTopE (p : ℕ → Option Bool) (mal : Int) : Option (Option ℕ) :=
  if mal < 0 then some none else scanDownE p mal.toNat

/-- The `nextAutoLevel` getter.  `none` models a thrown `TypeError`:
either `this.bwEstimator` / `this.fragCurrent` is still `undefined` (no
`main` fragment ever started loading) with no forced level
short-circuiting the query, or a scan reads `levels[i].bitrate` for an
out-of-range `i` (possible when the capping exceeds the ladder). -/
def nextAutoLevel (s : AbrState) (e : Env) : Option Int :=
  if s.nextAutoLevelForced ≠ -1 then
    some (min s.nextAutoLevelForced (maxAutoLevelOf s e.levels))
  else
    match s.bwEstimator, s.fragCurrent with
    | some est, some frag =>
      match
        (if 0 < availableFetchTimeOf e frag then
          scanTopE
            (comfP e.levels frag.duration est.getEstimate (availableFetchTimeOf e frag))
            (maxAutoLevelOf s e.levels)
        else some none) with
      | none => none
      | some (some i) => some (i : Int)
      | some none =>
        match
          scanTopE
            (recovP e.levels frag.duration est.getEstimate (availableFetchTimeOf e frag))
            (maxAutoLevelOf s e.levels) with
        | none => none
        | some (some i) => some (i : Int)
        | some none => some 0
    | _, _ => none

/-- Value `requestDelay = performance.now() - frag.trequest` (ms). -/
def requestDelayOf (e : Env) (frag : Frag) : ℚ :=
  e.now - frag.trequest

/-- Value `loadRate = Math.max(1, frag.loaded * 1000 / requestDelay)` (bytes/s,
floored at 1 to avoid division by zero). -/
def tickLoadRate (frag : Frag) (requestDelay : ℚ) : ℚ :=
  max 1 (frag.loaded * 1000 / requestDelay)

/-- Value `expectedLen = Math.max(frag.loaded, Math.round(frag.duration *
levels[frag.level].bitrate / 8))`; `none` models the `TypeError` thrown
when `levels[frag.level]` is `undefined`.  JavaScript `Math.round`
rounds half-up, which is Mathlib's `round` on `ℚ`. -/
def expectedLenOf (levels : List Level) (frag : Frag) : Option ℚ :=
  (levels.get? frag.level).map fun l =>
    max frag.loaded ((round (frag.duration * l.bitrate / 8) : ℤ) : ℚ)

/-- Value `bufferStarvationDelay = (bufferInfo(...).end - v.currentTime) /
playbackRate` as computed inside `abandonRulesCheck` (here `playbackRate =
|v.playbackRate|`, with no zero-rate default). -/
def tickBSD (e : Env) (v : Media) : ℚ :=
  (e.bufferEnd - v.currentTime) / |v.playbackRate|

/-- Value `fragLevelNextLoadedDelay = frag.duration * levels[i].bitrate /
(8 * 0.8 * loadRate)`; `none` models the `TypeError` on an `undefined`
`levels[i]`. -/
def candDelay (levels : List Level) (duration loadRate : ℚ) (i : ℕ) : Option ℚ :=
  (levels.get? i).map fun l => duration * l.bitrate / (8 * 0.8 * loadRate)

/-- The emergency switch-down loop
`for (nextLoadLevel = k; nextLoadLevel >= 0; nextLoadLevel--) { d := cand
nextLoadLevel; if (d < bsd) break }` started at index `k`: returns the
loop variable at exit (`-1` when it bottoms out) together with the last
computed `fragLevelNextLoadedDelay`; `none` propagates a `TypeError` from
an `undefined` ladder entry. -/
def emergencyLoop (cand : ℕ → Option ℚ) (bsd : ℚ) : ℕ → Option (Int × ℚ)
  | 0 => (cand 0).map fun d => if d < bsd then ((0 : Int), d) else (-1, d)
  | k + 1 =>
    (cand (k + 1)).bind fun d =>
      if d < bsd then some (((k : ℕ) + 1 : ℕ), d) else emergencyLoop cand bsd k

/-- The observable outcome of one `abandonRulesCheck` activation: the
state afterwards, the sample fed to the estimator (if any), whether
`frag.loader.abort()` was called, the fragment carried by the emitted
`FRAG_LOAD_EMERGENCY_ABORTED` event (if any), and the level written to
`hls.nextLoadLevel` (if any). -/
structure TickResult where
  state : AbrState
  sampled : Option (ℚ × ℚ)
  abortCalled : Bool
  emitted : Option Frag
  forcedLoad : Option Int
deriving DecidableEq, Repr

/-- A tick that changes nothing and performs no external action. -/
def noopTick (s : AbrState) : Option TickResult :=
  some { state := s, sampled := none, abortCalled := false,
         emitted := none, forcedLoad := none }

/-- Test `frag.loader.stats && frag.loader.stats.aborted` as a boolean. -/
def loaderShowsAborted (loader : Loader) : Bool :=
  match loader.stats with
  | some st => st.aborted
  | none => false

/-- Method `abandonRulesCheck()` — the periodic monitor tick.  `none` models a
`TypeError` (dereferencing an `undefined` `this.fragCurrent`,
`levels[frag.level]` or `this.bwEstimator`). -/
def abandonRulesCheck (s : AbrState) (e : Env) : Option TickResult :=
  match s.fragCurrent with
  | none => none
  | some frag =>
    -- if loader has been destroyed or loading has been aborted, stop timer and return
    if frag.loader.isNone ∨ (frag.loader.map loaderShowsAborted).getD false = true then
      some { state := clearTimer s, sampled := none, abortCalled := false,
             emitted := none, forcedLoad := none }
    else
      match e.media with
      | none => noopTick s
      | some v =>
        if ((v.paused = false ∧ v.playbackRate ≠ 0) ∨ v.readyState = 0) ∧
            frag.autoLevel = true ∧ frag.level ≠ 0 then
          -- monitor load progress only after half of the expected fragment duration
          if 500 * frag.duration / |v.playbackRate| < requestDelayOf e frag then
            match expectedLenOf e.levels frag with
            | none => none
            | some expectedLen =>
              -- emergency switch down only with < 2 fragments buffered and a
              -- projected finish later than buffer starvation
              if tickBSD e v < 2 * frag.duration / |v.playbackRate| ∧
                  tickBSD e v <
                    (expectedLen - frag.loaded) / tickLoadRate frag (requestDelayOf e frag) then
                match
                  emergencyLoop
                    (candDelay e.levels frag.duration
                      (tickLoadRate frag (requestDelayOf e frag)))
                    (tickBSD e v) (frag.level - 1) with
                | none => none
                | some (exitIdx, lastDelay) =>
                  -- switch only if the new fragment loads faster than finishing this one
                  if lastDelay <
                      (expectedLen - frag.loaded) / tickLoadRate frag (requestDelayOf e frag) then
                    match s.bwEstimator with
                    | none => none
                    | some est =>
                      some { state :=
                               { clearTimer s with
                                   bwEstimator :=
                                     some (est.sample (requestDelayOf e frag) frag.loaded) }
                             sampled := some (requestDelayOf e frag, frag.loaded)
                             abortCalled := true
                             emitted := some frag
                             forcedLoad := some (max 0 exitIdx) }
                  else noopTick s
              else noopTick s
          else noopTick s
        else noopTick s

/-- Handler `onFragLoading(data)`: for a `'main'` fragment, arm the
interval timer if idle, lazily construct the bandwidth estimator from the
stream type and configuration, stamp `frag.trequest` and record the
fragment.  The lazy initialisation reads
`hls.levels[frag.level].details.live` and throws a `TypeError` when
`levels[frag.level]` or its `details` is `undefined`; since the timer was
armed *before* that read, the throw leaves the engine in the
already-mutated state, returned here as `Except.error` (the `Except.ok`
state is the normal outcome). -/
def onFragLoading (s : AbrState) (e : Env) (frag : Frag) :
    Except AbrState AbrState :=
  if frag.fragType = FragType.main then
    let s1 := if s.timer = 0 then { s with timer := 1 } else s
    match s1.bwEstimator with
    | some _ =>
      .ok { s1 with fragCurrent := some { frag with trequest := e.now } }
    | none =>
      match e.levels.get? frag.level with
      | none => .error s1
      | some lvl =>
        match lvl.details with
        | none => .error s1
        | some det =>
          .ok { s1 with
                  bwEstimator :=
                    some { slow := if det.live then e.config.abrEwmaSlowLive
                                   else e.config.abrEwmaSlowVoD
                           fast := if det.live then e.config.abrEwmaFastLive
                                   else e.config.abrEwmaFastVoD
                           defaultEstimate := e.config.abrEwmaDefaultEstimate
                           samples := []
                           estimateVal := e.config.abrEwmaDefaultEstimate }
                  fragCurrent := some { frag with trequest := e.now } }
  else .ok s

/-- The engine state after an activation that may have thrown: the `ok`
state on a normal return, the partially-mutated state on a throw. -/
def exceptState (r : Except AbrState AbrState) : AbrState :=
  match r with
  | .ok s => s
  | .error s => s

/-- Handler `onFragLoaded(data)`: for a `'main'` fragment, feed the estimator a
full sample on a first, non-aborted load, disarm the monitor, record the
completed level and reset the forced next level.  `none` models the
`TypeError` when the sample branch dereferences an `undefined`
`this.bwEstimator`. -/
def onFragLoaded (s : AbrState) (e : Env) (frag : Frag) (stats : LoadStats) :
    Option AbrState :=
  if frag.fragType = FragType.main then
    (if stats.aborted = none ∧ frag.loadCounter = 1 then
      match s.bwEstimator with
      | none => none
      | some est =>
        some { s with
                 bwEstimator :=
                   some (est.sample (e.now - stats.trequest) stats.loaded) }
    else some s).map fun s1 =>
      { clearTimer s1 with
          lastLoadedFragLevel := frag.level
          nextAutoLevelForced := -1 }
  else some s

/-- The error kinds `onError` distinguishes: `FRAG_LOAD_ERROR`,
`FRAG_LOAD_TIMEOUT` and everything else. -/
inductive ErrorKind where
  | fragLoadError
  | fragLoadTimeout
  | otherKind
deriving DecidableEq, Repr

/-- Handler `onError(data)`: disarm the monitor on a fragment load error or
timeout; ignore every other error. -/
def onError (s : AbrState) (k : ErrorKind) : AbrState :=
  match k with
  | .fragLoadError => clearTimer s
  | .fragLoadTimeout => clearTimer s
  | .otherKind => s

/-- Setter `set nextAutoLevel(nextLevel)`. -/
def setNextAutoLevel (s : AbrState) (n : Int) : AbrState :=
  { s with nextAutoLevelForced := n }

/-- Setter `set autoLevelCapping(newLevel)`. -/
def setAutoLevelCapping (s : AbrState) (n : Int) : AbrState :=
  { s with autoLevelCapping := n }

/-- One engine activation: an event callback (normal return or throw), a
monitor tick (which only fires while the timer is armed; a throwing tick
leaves the engine's own state unchanged — each dereference that can throw
happens before any mutation of the controller's fields, the one write
preceding the last dereference being to the external `hls.nextLoadLevel`),
or a property setter.  Each activation reads its own external
environment. -/
inductive Step : AbrState → AbrState → Prop
  | fragLoading {s : AbrState} (e : Env) (frag : Frag) {s' : AbrState} :
      onFragLoading s e frag = .ok s' → Step s s'
  | fragLoadingThrew {s : AbrState} (e : Env) (frag : Frag) {s' : AbrState} :
      onFragLoading s e frag = .error s' → Step s s'
  | fragLoaded {s : AbrState} (e : Env) (frag : Frag) (stats : LoadStats)
      {s' : AbrState} : onFragLoaded s e frag stats = some s' → Step s s'
  | fragLoadedThrew {s : AbrState} (e : Env) (frag : Frag) (stats : LoadStats) :
      onFragLoaded s e frag stats = none → Step s s
  | errorEv {s : AbrState} (k : ErrorKind) : Step s (onError s k)
  | tick {s : AbrState} (e : Env) (r : TickResult) :
      s.timer ≠ 0 → abandonRulesCheck s e = some r → Step s r.state
  | tickThrew {s : AbrState} (e : Env) :
      s.timer ≠ 0 → abandonRulesCheck s e = none → Step s s
  | setNext {s : AbrState} (n : Int) : Step s (setNextAutoLevel s n)
  | setCap {s : AbrState} (n : Int) : Step s (setAutoLevelCapping s n)

/-- States reachable from the constructor-time state. -/
inductive Reachable : AbrState → Prop
  | init : Reachable initialState
  | step {s s' : AbrState} : Reachable s → Step s s' → Reachable s'

/-! ### Lemmas about the downward scans -/

theorem scanDownE_found_le {p : ℕ → Option Bool} {k i : ℕ}
    (h : scanDownE p k = some (some i)) : i ≤ k := by
  induction k with
  | zero =>
    rcases hc : p 0 with _ | b
    · rw [scanDownE, hc] at h
      simp at h
    · rw [scanDownE, hc] at h
      cases b
      · simp at h
      · simp only [Option.map_some', if_true] at h
        cases Option.some_inj.mp (Option.some_inj.mp h)
        exact Nat.le_refl 0
  | succ k ih =>
    rcases hc : p (k + 1) with _ | b
    · rw [scanDownE, hc] at h
      simp at h
    · rw [scanDownE, hc] at h
      cases b
      · simp only [Option.some_bind, if_false, Bool.false_eq_true, ite_false] at h
        exact le_trans (ih h) (Nat.le_succ k)
      · simp only [Option.some_bind, ite_true] at h
        cases Option.some_inj.mp (Option.some_inj.mp h)
        exact Nat.le_refl _

theorem scanDownE_found_prop {p : ℕ → Option Bool} {k i : ℕ}
    (h : scanDownE p k = some (some i)) : p i = some true := by
  induction k with
  | zero =>
    rcases hc : p 0 with _ | b
    · rw [scanDownE, hc] at h
      simp at h
    · rw [scanDownE, hc] at h
      cases b
      · simp at h
      · simp only [Option.map_some', if_true] at h
        cases Option.some_inj.mp (Option.some_inj.mp h)
        exact hc
  | succ k ih =>
    rcases hc : p (k + 1) with _ | b
    · rw [scanDownE, hc] at h
      simp at h
    · rw [scanDownE, hc] at h
      cases b
      · simp only [Option.some_bind, Bool.false_eq_true, ite_false] at h
        exact ih h
      · simp only [Option.some_bind, ite_true] at h
        cases Option.some_inj.mp (Option.some_inj.mp h)
        exact hc

theorem scanDownE_eq_found {p : ℕ → Option Bool} {k i : ℕ} (hik : i ≤ k)
    (hp : p i = some true)
    (habove : ∀ j, j ≤ k → i < j → p j = some false) :
    scanDownE p k = some (some i) := by
  induction k with
  | zero =>
    have h0 : i = 0 := Nat.le_zero.mp hik
    subst h0
    simp [scanDownE, hp]
  | succ k ih =>
    rcases Nat.lt_or_ge i (k + 1) with hlt | hge
    · have hpk : p (k + 1) = some false := habove (k + 1) (Nat.le_refl _) hlt
      rw [scanDownE, hpk]
      simp only [Option.some_bind, Bool.false_eq_true, ite_false]
      exact ih (by omega) fun j hj hij => habove j (by omega) hij
    · have h1 : i = k + 1 := by omega
      subst h1
      simp [scanDownE, hp]

theorem scanDownE_eq_exhausted {p : ℕ → Option Bool} {k : ℕ}
    (h : ∀ j, j ≤ k → p j = some false) : scanDownE p k = some none := by
  induction k with
  | zero => simp [scanDownE, h 0 (Nat.le_refl 0)]
  | succ k ih =>
    rw [scanDownE, h (k + 1) (Nat.le_refl _)]
    simp only [Option.some_bind, Bool.false_eq_true, ite_false]
    exact ih fun j hj => h j (by omega)

theorem scanDownE_isSome {p : ℕ → Option Bool} {k : ℕ}
    (h : ∀ j, j ≤ k → (p j).isSome = true) : (scanDownE p k).isSome = true := by
  induction k with
  | zero =>
    rcases hc : p 0 with _ | b
    · have h0 := h 0 (Nat.le_refl 0)
      rw [hc] at h0
      simp at h0
    · simp [scanDownE, hc]
  | succ k ih =>
    rcases hc : p (k + 1) with _ | b
    · have h1 := h (k + 1) (Nat.le_refl _)
      rw [hc] at h1
      simp at h1
    · rw [scanDownE, hc]
      cases b
      · simp only [Option.some_bind, Bool.false_eq_true, ite_false]
        exact ih fun j hj => h j (by omega)
      · simp

theorem scanDownE_mono {p q : ℕ → Option Bool}
    (hq : ∀ j, (q j).isSome = (p j).isSome)
    (hpq : ∀ j, p j = some true → q j = some true) {k i : ℕ}
    (h : scanDownE p k = some (some i)) :
    ∃ j, i ≤ j ∧ scanDownE q k = some (some j) := by
  induction k with
  | zero =>
    have h0 : i = 0 := Nat.le_zero.mp (scanDownE_found_le h)
    subst h0
    exact ⟨0, Nat.le_refl 0,
      by simp [scanDownE, hpq 0 (scanDownE_found_prop h)]⟩
  | succ k ih =>
    rcases hc : p (k + 1) with _ | b
    · rw [scanDownE, hc] at h
      simp at h
    · rw [scanDownE, hc] at h
      cases b
      · simp only [Option.some_bind, Bool.false_eq_true, ite_false] at h
        obtain ⟨j, hij, hj⟩ := ih h
        have hqs : (q (k + 1)).isSome = true := by rw [hq, hc]; rfl
        rcases hqc : q (k + 1) with _ | qb
        · rw [hqc] at hqs
          simp at hqs
        · cases qb
          · exact ⟨j, hij, by rw [scanDownE, hqc]; simpa using hj⟩
          · exact ⟨k + 1, le_trans (scanDownE_found_le h) (Nat.le_succ k),
              by simp [scanDownE, hqc]⟩
      · simp only [Option.some_bind, ite_true] at h
        cases Option.some_inj.mp (Option.some_inj.mp h)
        exact ⟨k + 1, Nat.le_refl _, by simp [scanDownE, hpq _ hc]⟩

/-! ### Concrete scenario data used by witnesses and counterexamples -/

/-- A configuration with the reference defaults. -/
def cfg0 : Config :=
  { abrEwmaFastLive := 5, abrEwmaSlowLive := 9, abrEwmaFastVoD := 4,
    abrEwmaSlowVoD := 15, abrEwmaDefaultEstimate := 500000, maxBufferHole := 1 / 2 }

/-- The ladder `[500k, 1000k, 2000k]` bps of scenarios A and B. -/
def ladderABC : List Level :=
  [{ bitrate := 500000, details := some { live := false } },
   { bitrate := 1000000, details := some { live := false } },
   { bitrate := 2000000, details := some { live := false } }]

/-- A media element playing at normal speed. -/
def mediaPlaying : Media :=
  { paused := false, playbackRate := 1, readyState := 4, currentTime := 0 }

/-- A monitored auto-selected `main` fragment at level 2 with duration 6 s. -/
def fragA : Frag :=
  { level := 2, fragType := .main, duration := 6, loaded := 0, trequest := 0,
    loadCounter := 1, autoLevel := true,
    loader := some { stats := some { aborted := false } } }

/-- An estimator whose current estimate is `b` bps. -/
def estWith (b : ℚ) : EwmaBandWidthEstimator :=
  { slow := 15, fast := 4, defaultEstimate := 500000, samples := [], estimateVal := b }

/-- Scenario A state: monitoring `fragA`, estimate 1500k bps, uncapped,
no forced level. -/
def stateA : AbrState :=
  { initialState with
      timer := 1
      bwEstimator := some (estWith 1500000)
      fragCurrent := some fragA }

/-- Scenario A environment: buffered to 17 s at position 0 and rate 1, so
`bufferStarvationDelay = 17`, `targetMinBuffered = 12` and
`availableFetchTime = 5`. -/
def envA : Env :=
  { levels := ladderABC, media := some mediaPlaying, bufferEnd := 17, now := 0,
    config := cfg0 }

/-! ### Claim C1 — comfortable case of the selection query -/

/-- Claim C1: whenever `availableFetchTime > 0`, the `nextAutoLevel` query
scans level indices from `maxAutoLevel` down to `0` and returns the first
(i.e. highest) index `i` whose `fetchTime = bitrate * duration / estimate`
is strictly below `availableFetchTime` (stated with `i` the greatest index
up to `maxAutoLevel` passing the loop test `comfP`, for a query on the
normal path: no forced level, estimator and monitored fragment present,
and `maxAutoLevel` within the ladder so no scanned access throws). -/
theorem c1_comfortable_case (s : AbrState) (e : Env)
    (est : EwmaBandWidthEstimator) (frag : Frag) (k i : ℕ)
    (hforced : s.nextAutoLevelForced = -1)
    (hest : s.bwEstimator = some est)
    (hfrag : s.fragCurrent = some frag)
    (hmal : maxAutoLevelOf s e.levels = (k : Int))
    (_hk : k < e.levels.length)
    (haft : 0 < availableFetchTimeOf e frag)
    (hik : i ≤ k)
    (hp : comfP e.levels frag.duration est.getEstimate
      (availableFetchTimeOf e frag) i = some true)
    (habove : ∀ j, j ≤ k → i < j →
      comfP e.levels frag.duration est.getEstimate
        (availableFetchTimeOf e frag) j = some false) :
    nextAutoLevel s e = some (i : Int) := by
  have hscan : scanTopE
      (comfP e.levels frag.duration est.getEstimate (availableFetchTimeOf e frag))
      (maxAutoLevelOf s e.levels) = some (some i) := by
    rw [hmal]
    unfold scanTopE
    rw [if_neg (by omega)]
    rw [Int.toNat_natCast]
    exact scanDownE_eq_found hik hp habove
  simp only [nextAutoLevel, hforced, hest, hfrag, if_pos haft, hscan]
  simp

/-- Claim C1 witness: scenario A — ladder `[500k, 1000k, 2000k]` bps,
duration 6 s, estimate 1500k bps, uncapped, `availableFetchTime = 5 s`:
the query returns index 1 (`fetchTime = 4 < 5`), not index 2
(`fetchTime = 8`). -/
theorem c1_comfortable_case_witness : nextAutoLevel stateA envA = some 1 := by
  have h := c1_comfortable_case stateA envA (estWith 1500000) fragA 2 1
    rfl rfl rfl
    (by norm_num [maxAutoLevelOf, stateA, envA, ladderABC, initialState])
    (by norm_num [envA, ladderABC])
    (by norm_num [availableFetchTimeOf, bufferStarvationDelayOf, posOf,
      playbackRateOf, envA, fragA, mediaPlaying])
    (by norm_num)
    (by norm_num [comfP, envA, fragA, ladderABC, estWith,
      EwmaBandWidthEstimator.getEstimate, availableFetchTimeOf,
      bufferStarvationDelayOf, posOf, playbackRateOf, mediaPlaying])
    (by
      intro j hj h1j
      interval_cases j
      norm_num [comfP, envA, fragA, ladderABC, estWith,
        EwmaBandWidthEstimator.getEstimate, availableFetchTimeOf,
        bufferStarvationDelayOf, posOf, playbackRateOf, mediaPlaying])
  exact_mod_cast h

/-! ### Claim C2 — recovery case and fallback of the selection query -/

/-- Scenario B state: like scenario A but with estimate 100k bps. -/
def stateB : AbrState :=
  { stateA with bwEstimator := some (estWith 100000) }

/-- Scenario B environment: buffered to 9 s, so `availableFetchTime = -3`. -/
def envB : Env :=
  { envA with bufferEnd := 9 }

/-- Claim C2: when no level satisfies the comfortable case (or
`availableFetchTime ≤ 0`), the query scans from `maxAutoLevel` down to `0`
and returns the first index where
`0.5 * availableFetchTime + (duration - fetchTime) > 0` (the loop test
`recovP`); if no level satisfies that either, it returns index `0` (a
normal return, not an error).  As in C1 the query is on the normal path
with `maxAutoLevel` within the ladder, so no scanned access throws. -/
theorem c2_recovery_and_fallback (s : AbrState) (e : Env)
    (est : EwmaBandWidthEstimator) (frag : Frag) (k : ℕ)
    (hforced : s.nextAutoLevelForced = -1)
    (hest : s.bwEstimator = some est)
    (hfrag : s.fragCurrent = some frag)
    (hmal : maxAutoLevelOf s e.levels = (k : Int))
    (_hk : k < e.levels.length)
    (hcomf : availableFetchTimeOf e frag ≤ 0 ∨
      ∀ j, j ≤ k → comfP e.levels frag.duration est.getEstimate
        (availableFetchTimeOf e frag) j = some false) :
    (∀ i, i ≤ k →
      recovP e.levels frag.duration est.getEstimate
        (availableFetchTimeOf e frag) i = some true →
      (∀ j, j ≤ k → i < j → recovP e.levels frag.duration est.getEstimate
        (availableFetchTimeOf e frag) j = some false) →
      nextAutoLevel s e = some (i : Int)) ∧
    ((∀ j, j ≤ k → recovP e.levels frag.duration est.getEstimate
        (availableFetchTimeOf e frag) j = some false) →
      nextAutoLevel s e = some 0) := by
  have hcnone :
      (if 0 < availableFetchTimeOf e frag then
        scanTopE (comfP e.levels frag.duration est.getEstimate
          (availableFetchTimeOf e frag)) (maxAutoLevelOf s e.levels)
      else some none) = some none := by
    rcases hcomf with h | h
    · rw [if_neg (not_lt.mpr h)]
    · split
      · rw [hmal]
        unfold scanTopE
        rw [if_neg (by omega), Int.toNat_natCast]
        exact scanDownE_eq_exhausted h
      · rfl
  constructor
  · intro i hik hp habove
    have hr : scanTopE (recovP e.levels frag.duration est.getEstimate
        (availableFetchTimeOf e frag)) (maxAutoLevelOf s e.levels) =
        some (some i) := by
      rw [hmal]
      unfold scanTopE
      rw [if_neg (by omega), Int.toNat_natCast]
      exact scanDownE_eq_found hik hp habove
    simp only [nextAutoLevel, hforced, hest, hfrag, hcnone, hr]
    simp
  · intro h
    have hr : scanTopE (recovP e.levels frag.duration est.getEstimate
        (availableFetchTimeOf e frag)) (maxAutoLevelOf s e.levels) =
        some none := by
      rw [hmal]
      unfold scanTopE
      rw [if_neg (by omega), Int.toNat_natCast]
      exact scanDownE_eq_exhausted h
    simp only [nextAutoLevel, hforced, hest, hfrag, hcnone, hr]
    simp

/-- Claim C2 witness: scenario B — same ladder, estimate 100k bps,
`availableFetchTime = -3 s`: every level fails the recovery test and the
query falls back to index 0. -/
theorem c2_recovery_and_fallback_witness : nextAutoLevel stateB envB = some 0 := by
  refine (c2_recovery_and_fallback stateB envB (estWith 100000) fragA 2
    rfl rfl rfl
    (by norm_num [maxAutoLevelOf, stateB, stateA, envB, envA, ladderABC, initialState])
    (by norm_num [envB, envA, ladderABC])
    (Or.inl (by norm_num [availableFetchTimeOf, bufferStarvationDelayOf, posOf,
      playbackRateOf, envB, envA, fragA, mediaPlaying]))).2 ?_
  intro j hj
  interval_cases j <;>
    norm_num [recovP, envB, envA, fragA, ladderABC, estWith,
      EwmaBandWidthEstimator.getEstimate, availableFetchTimeOf,
      bufferStarvationDelayOf, posOf, playbackRateOf, mediaPlaying]

/-! ### Simple facts about `clearTimer` -/

@[simp] theorem clearTimer_timer (s : AbrState) : (clearTimer s).timer = 0 := by
  unfold clearTimer
  split
  · rfl
  · rename_i h
    simpa using not_ne_iff.mp h

@[simp] theorem clearTimer_bwEstimator (s : AbrState) :
    (clearTimer s).bwEstimator = s.bwEstimator := by
  unfold clearTimer
  split <;> rfl

@[simp] theorem clearTimer_fragCurrent (s : AbrState) :
    (clearTimer s).fragCurrent = s.fragCurrent := by
  unfold clearTimer
  split <;> rfl

@[simp] theorem clearTimer_lastLoadedFragLevel (s : AbrState) :
    (clearTimer s).lastLoadedFragLevel = s.lastLoadedFragLevel := by
  unfold clearTimer
  split <;> rfl

@[simp] theorem clearTimer_nextAutoLevelForced (s : AbrState) :
    (clearTimer s).nextAutoLevelForced = s.nextAutoLevelForced := by
  unfold clearTimer
  split <;> rfl

@[simp] theorem clearTimer_autoLevelCapping (s : AbrState) :
    (clearTimer s).autoLevelCapping = s.autoLevelCapping := by
  unfold clearTimer
  split <;> rfl

/-- Disarming an idle monitor is a no-op. -/
theorem clearTimer_idle (s : AbrState) (h : s.timer = 0) : clearTimer s = s := by
  unfold clearTimer
  rw [if_neg (by omega)]

/-! ### Claim C9 — total, crash-free query surface -/

/-- An environment with no media element attached, as before playback
starts. -/
def env9 : Env :=
  { levels := ladderABC, media := none, bufferEnd := 0, now := 0, config := cfg0 }

/-- Claim C9 counterexample: at the constructor-time state — before any
`main` request has started, so no estimator is constructed and no current
fragment is recorded — the `nextAutoLevel` query does not return a level
index: it dereferences the `undefined` `this.bwEstimator` (modelled by the
query returning `none`), contradicting the claim that the query may be
invoked at any time and always returns a level index. -/
theorem c9_counterexample :
    initialState.bwEstimator = none ∧ initialState.fragCurrent = none ∧
    nextAutoLevel initialState env9 = none :=
  ⟨rfl, rfl, by norm_num [nextAutoLevel, initialState]⟩

/-- In-range indices never throw in the comfortable-case loop test. -/
theorem comfP_isSome {levels : List Level} {duration lastbw aft : ℚ} {j : ℕ}
    (h : j < levels.length) :
    (comfP levels duration lastbw aft j).isSome = true := by
  unfold comfP
  cases hg : levels.get? j with
  | none => exact absurd (List.get?_eq_none.mp hg) (by omega)
  | some l => rfl

/-- In-range indices never throw in the recovery-case loop test. -/
theorem recovP_isSome {levels : List Level} {duration lastbw aft : ℚ} {j : ℕ}
    (h : j < levels.length) :
    (recovP levels duration lastbw aft j).isSome = true := by
  unfold recovP
  cases hg : levels.get? j with
  | none => exact absurd (List.get?_eq_none.mp hg) (by omega)
  | some l => rfl

/-- A scan whose start bound stays within the ladder never throws. -/
theorem scanTopE_isSome_of_lt {p : ℕ → Option Bool} {mal : Int} {n : ℕ}
    (hmal : mal < (n : Int)) (hp : ∀ j, j < n → (p j).isSome = true) :
    (scanTopE p mal).isSome = true := by
  unfold scanTopE
  split
  · rfl
  · rename_i hneg
    exact scanDownE_isSome fun j hj => hp j (by omega)

/-- Claim C9, amended: the `nextAutoLevel` query returns a level index
(never throws) whenever a forced next level is set, or a `main` request
has started at least once (estimator and current fragment defined) *and*
`maxAutoLevel` lies below the ladder length — which always holds when the
cap is unset.  Outside that domain the getter throws: before
initialisation with no forced level it dereferences the missing
estimator, and with a cap at or above the ladder length the first scan
iteration reads `.bitrate` of the `undefined` `levels[maxAutoLevel]`. -/
theorem c9_total_after_first_request (s : AbrState) (e : Env)
    (h : s.nextAutoLevelForced ≠ -1 ∨
      (s.bwEstimator.isSome = true ∧ s.fragCurrent.isSome = true ∧
        maxAutoLevelOf s e.levels < (e.levels.length : Int))) :
    (nextAutoLevel s e).isSome = true := by
  by_cases hf : s.nextAutoLevelForced ≠ -1
  · simp [nextAutoLevel, if_pos hf]
  · rcases h with h | ⟨h1, h2, h3⟩
    · exact absurd h hf
    · obtain ⟨est, hest⟩ := Option.isSome_iff_exists.mp h1
      obtain ⟨frag, hfrag⟩ := Option.isSome_iff_exists.mp h2
      have hcomf : (scanTopE (comfP e.levels frag.duration est.getEstimate
          (availableFetchTimeOf e frag)) (maxAutoLevelOf s e.levels)).isSome =
          true :=
        scanTopE_isSome_of_lt h3 fun j hj => comfP_isSome hj
      have hrecov : (scanTopE (recovP e.levels frag.duration est.getEstimate
          (availableFetchTimeOf e frag)) (maxAutoLevelOf s e.levels)).isSome =
          true :=
        scanTopE_isSome_of_lt h3 fun j hj => recovP_isSome hj
      simp only [nextAutoLevel, if_neg hf, hest, hfrag]
      rcases hcv : (if 0 < availableFetchTimeOf e frag then
          scanTopE (comfP e.levels frag.duration est.getEstimate
            (availableFetchTimeOf e frag)) (maxAutoLevelOf s e.levels)
        else some none) with _ | oc
      · exfalso
        by_cases haft : 0 < availableFetchTimeOf e frag
        · rw [if_pos haft] at hcv
          rw [hcv] at hcomf
          simp at hcomf
        · rw [if_neg haft] at hcv
          simp at hcv
      · rcases oc with _ | i
        · rcases hrv : scanTopE (recovP e.levels frag.duration est.getEstimate
              (availableFetchTimeOf e frag)) (maxAutoLevelOf s e.levels)
            with _ | orc
          · exfalso
            rw [hrv] at hrecov
            simp at hrecov
          · rcases orc with _ | i
            · rfl
            · rfl
        · rfl

/-- Claim C9 witness (amended form): at scenario A — estimator and
fragment defined, cap unset on a three-level ladder — the query returns a
level index. -/
theorem c9_total_after_first_request_witness :
    (nextAutoLevel stateA envA).isSome = true :=
  c9_total_after_first_request stateA envA
    (Or.inr ⟨rfl, rfl,
      by norm_num [maxAutoLevelOf, stateA, envA, ladderABC, initialState]⟩)

/-! ### Claim C7 — forced-next is a one-shot capped override -/

/-- Claim C7: while `forcedNextLevel` (`_nextAutoLevel`) is set (not
`-1`), every `nextAutoLevel` query returns
`min(forcedNextLevel, maxAutoLevel)` immediately — the statement holds for
every state, including states with no estimator and no buffer knowledge,
which is the sense in which the override bypasses estimation — and a
successful completion of a `main` request resets `forcedNextLevel` to
`-1`, so subsequent queries are estimate-driven again. -/
theorem c7_forced_one_shot (s : AbrState) (e : Env) (frag : Frag)
    (stats : LoadStats) :
    (s.nextAutoLevelForced ≠ -1 →
      nextAutoLevel s e = some (min s.nextAutoLevelForced (maxAutoLevelOf s e.levels))) ∧
    (∀ s', frag.fragType = FragType.main →
      onFragLoaded s e frag stats = some s' → s'.nextAutoLevelForced = -1) := by
  constructor
  · intro h
    simp [nextAutoLevel, if_pos h]
  · intro s' hmain hld
    simp only [onFragLoaded, if_pos hmain] at hld
    obtain ⟨s1, _, hs'⟩ := Option.map_eq_some'.mp hld
    rw [← hs']

/-- Fragment-completion stats for a clean first load finishing at time 0:
no aborted marker, request started at 0, 100 bytes. -/
def statsClean : LoadStats :=
  { aborted := none, trequest := 0, loaded := 100 }

/-- Scenario A state with a forced next level of 5. -/
def state7 : AbrState :=
  { stateA with nextAutoLevelForced := 5 }

/-- The state after `fragA` completes from `state7` in `envA` (the sample
has elapsed time 0, which the estimator ignores). -/
def stateDoneA : AbrState :=
  { lastLoadedFragLevel := 2, autoLevelCapping := -1, nextAutoLevelForced := -1,
    timer := 0, bwEstimator := some (estWith 1500000), fragCurrent := some fragA }

/-- Claim C7 witness: with forced level 5 on a 3-level uncapped ladder the
query returns `min 5 2 = 2` at once, and completing `fragA` resets the
forced level to `-1`. -/
theorem c7_forced_one_shot_witness :
    nextAutoLevel state7 envA = some 2 ∧ stateDoneA.nextAutoLevelForced = -1 := by
  have h := c7_forced_one_shot state7 envA fragA statsClean
  constructor
  · have h1 := h.1 (by norm_num [state7, stateA, initialState])
    rw [h1]
    norm_num [state7, stateA, initialState, maxAutoLevelOf, envA, ladderABC]
  · refine h.2 stateDoneA rfl ?_
    norm_num [onFragLoaded, state7, stateA, initialState, fragA, statsClean, envA,
      EwmaBandWidthEstimator.sample, clearTimer, stateDoneA, estWith]

/-! ### Claim C8 — estimator frame condition on completion -/

/-- Claim C8: handling a completed `main` request feeds the bandwidth
estimator one sample — elapsed `= now - stats.trequest`, bytes
`= stats.loaded` — exactly when the request's load attempt count equals 1
and its stats carry no aborted marker; otherwise the estimator is left
unchanged.  In both cases the monitor is disarmed and
`lastLoadedFragLevel` is updated. -/
theorem c8_estimator_frame (s : AbrState) (e : Env) (frag : Frag)
    (stats : LoadStats) (est : EwmaBandWidthEstimator) (s' : AbrState)
    (hmain : frag.fragType = FragType.main)
    (hest : s.bwEstimator = some est)
    (h : onFragLoaded s e frag stats = some s') :
    (stats.aborted = none ∧ frag.loadCounter = 1 →
      s'.bwEstimator = some (est.sample (e.now - stats.trequest) stats.loaded)) ∧
    (¬(stats.aborted = none ∧ frag.loadCounter = 1) →
      s'.bwEstimator = some est) ∧
    s'.timer = 0 ∧ s'.lastLoadedFragLevel = frag.level := by
  simp only [onFragLoaded, if_pos hmain] at h
  split at h
  · rename_i hcond
    rw [hest] at h
    simp only [Option.map_some'] at h
    cases Option.some_inj.mp h
    refine ⟨fun _ => by simp, fun hn => absurd hcond hn, by simp, by simp⟩
  · rename_i hcond
    simp only [Option.map_some'] at h
    cases Option.some_inj.mp h
    exact ⟨fun hc => absurd hc hcond, fun _ => by simp [hest], by simp, by simp⟩

/-- A cached-load completion: second attempt (`loadCounter = 2`). -/
def fragCached : Frag :=
  { fragA with loadCounter := 2 }

/-- Claim C8 witness: completing the twice-loaded `fragCached` from
scenario A leaves the estimator untouched while still disarming the
monitor and recording the level. -/
theorem c8_estimator_frame_witness :
    ∃ s', onFragLoaded stateA envA fragCached statsClean = some s' ∧
      s'.bwEstimator = some (estWith 1500000) ∧ s'.timer = 0 ∧
      s'.lastLoadedFragLevel = 2 := by
  have hld : onFragLoaded stateA envA fragCached statsClean =
      some { stateDoneA with nextAutoLevelForced := stateA.nextAutoLevelForced } := by
    norm_num [onFragLoaded, stateA, initialState, fragA, fragCached, statsClean,
      envA, clearTimer, stateDoneA, estWith]
  have h := c8_estimator_frame stateA envA fragCached statsClean
    (estWith 1500000) _ rfl rfl hld
  exact ⟨_, hld, h.2.1 (by norm_num [fragCached, fragA, statsClean]), h.2.2⟩

/-! ### Characterisation of the emergency switch-down loop -/

theorem emergencyLoop_spec {cand : ℕ → Option ℚ} {bsd : ℚ} {k : ℕ} {idx : Int}
    {d : ℚ} (h : emergencyLoop cand bsd k = some (idx, d)) :
    (-1 ≤ idx ∧ idx ≤ (k : Int)) ∧
    (0 ≤ idx → cand idx.toNat = some d ∧ d < bsd) ∧
    (idx = -1 → cand 0 = some d ∧ ¬d < bsd) ∧
    (∀ j : ℕ, j ≤ k → idx < (j : Int) → ∃ dj, cand j = some dj ∧ ¬dj < bsd) := by
  induction k with
  | zero =>
    rcases hc : cand 0 with _ | d0
    · rw [emergencyLoop, hc] at h
      simp at h
    · rw [emergencyLoop, hc] at h
      simp only [Option.map_some'] at h
      by_cases hd : d0 < bsd
      · rw [if_pos hd] at h
        obtain ⟨h1, h2⟩ := Prod.mk.injEq _ _ _ _ ▸ Option.some_inj.mp h
        subst h1
        subst h2
        refine ⟨⟨by omega, by omega⟩, fun _ => ⟨by simp [hc], hd⟩, fun h0 => by omega, ?_⟩
        intro j hj hij
        omega
      · rw [if_neg hd] at h
        obtain ⟨h1, h2⟩ := Prod.mk.injEq _ _ _ _ ▸ Option.some_inj.mp h
        subst h1
        subst h2
        refine ⟨⟨by omega, by omega⟩, fun h0 => by omega, fun _ => ⟨by simp [hc], hd⟩, ?_⟩
        intro j hj hij
        have hj0 : j = 0 := Nat.le_zero.mp hj
        subst hj0
        exact ⟨d0, by simp [hc], hd⟩
  | succ k ih =>
    rcases hc : cand (k + 1) with _ | dk
    · rw [emergencyLoop, hc] at h
      simp at h
    · rw [emergencyLoop, hc] at h
      simp only [Option.some_bind] at h
      by_cases hd : dk < bsd
      · rw [if_pos hd] at h
        obtain ⟨h1, h2⟩ := Prod.mk.injEq _ _ _ _ ▸ Option.some_inj.mp h
        subst h1
        subst h2
        refine ⟨⟨by omega, by omega⟩, fun _ => ?_, fun h0 => by omega, ?_⟩
        · rw [show ((((k : ℕ) + 1 : ℕ) : Int)).toNat = k + 1 by omega]
          exact ⟨by simp [hc], hd⟩
        · intro j hj hij
          omega
      · rw [if_neg hd] at h
        obtain ⟨⟨hb1, hb2⟩, hbrk, hbot, habove⟩ := ih h
        refine ⟨⟨hb1, by omega⟩, hbrk, hbot, ?_⟩
        intro j hj hij
        rcases Nat.lt_or_ge j (k + 1) with hlt | hge
        · exact habove j (by omega) hij
        · have hjk : j = k + 1 := by omega
          subst hjk
          exact ⟨dk, by simp [hc], hd⟩

/-! ### Forward evaluation of `abandonRulesCheck` on the abort path -/

theorem abandonRulesCheck_abort_eval {s : AbrState} {e : Env} {frag : Frag}
    {v : Media} {el : ℚ} {est : EwmaBandWidthEstimator} {idx : Int} {lastd : ℚ}
    (hfrag : s.fragCurrent = some frag)
    (hlive : ¬(frag.loader.isNone = true ∨
      (frag.loader.map loaderShowsAborted).getD false = true))
    (hmedia : e.media = some v)
    (hcond : ((v.paused = false ∧ v.playbackRate ≠ 0) ∨ v.readyState = 0) ∧
      frag.autoLevel = true ∧ frag.level ≠ 0)
    (hdelay : 500 * frag.duration / |v.playbackRate| < requestDelayOf e frag)
    (hel : expectedLenOf e.levels frag = some el)
    (habort : tickBSD e v < 2 * frag.duration / |v.playbackRate| ∧
      tickBSD e v < (el - frag.loaded) / tickLoadRate frag (requestDelayOf e frag))
    (hloop : emergencyLoop
      (candDelay e.levels frag.duration (tickLoadRate frag (requestDelayOf e frag)))
      (tickBSD e v) (frag.level - 1) = some (idx, lastd))
    (hsw : lastd < (el - frag.loaded) / tickLoadRate frag (requestDelayOf e frag))
    (hest : s.bwEstimator = some est) :
    abandonRulesCheck s e =
      some { state := { clearTimer s with
                          bwEstimator :=
                            some (est.sample (requestDelayOf e frag) frag.loaded) }
             sampled := some (requestDelayOf e frag, frag.loaded)
             abortCalled := true
             emitted := some frag
             forcedLoad := some (max 0 idx) } := by
  unfold abandonRulesCheck
  simp only [hfrag, hmedia, hel, hloop, hest, if_neg hlive, if_pos hcond,
    if_pos hdelay, if_pos habort, if_pos hsw]

theorem abandonRulesCheck_noabort_eval {s : AbrState} {e : Env} {frag : Frag}
    {v : Media} {el : ℚ} {idx : Int} {lastd : ℚ}
    (hfrag : s.fragCurrent = some frag)
    (hlive : ¬(frag.loader.isNone = true ∨
      (frag.loader.map loaderShowsAborted).getD false = true))
    (hmedia : e.media = some v)
    (hcond : ((v.paused = false ∧ v.playbackRate ≠ 0) ∨ v.readyState = 0) ∧
      frag.autoLevel = true ∧ frag.level ≠ 0)
    (hdelay : 500 * frag.duration / |v.playbackRate| < requestDelayOf e frag)
    (hel : expectedLenOf e.levels frag = some el)
    (habort : tickBSD e v < 2 * frag.duration / |v.playbackRate| ∧
      tickBSD e v < (el - frag.loaded) / tickLoadRate frag (requestDelayOf e frag))
    (hloop : emergencyLoop
      (candDelay e.levels frag.duration (tickLoadRate frag (requestDelayOf e frag)))
      (tickBSD e v) (frag.level - 1) = some (idx, lastd))
    (hsw : ¬lastd < (el - frag.loaded) / tickLoadRate frag (requestDelayOf e frag)) :
    abandonRulesCheck s e = noopTick s := by
  unfold abandonRulesCheck
  simp only [hfrag, hmedia, hel, hloop, if_neg hlive, if_pos hcond,
    if_pos hdelay, if_pos habort, if_neg hsw]

/-- Inversion of `abandonRulesCheck`: if the tick cancelled the request or
fed the estimator, then it went down the abort path, so every gate on that
path was passed and the result has exactly the abort shape. -/
theorem abandon_action_shape {s : AbrState} {e : Env} {r : TickResult}
    (h : abandonRulesCheck s e = some r)
    (hact : r.abortCalled = true ∨ r.sampled.isSome = true) :
    ∃ frag v el est idx lastd,
      s.fragCurrent = some frag ∧ e.media = some v ∧ s.bwEstimator = some est ∧
      ¬(frag.loader.isNone = true ∨
        (frag.loader.map loaderShowsAborted).getD false = true) ∧
      (((v.paused = false ∧ v.playbackRate ≠ 0) ∨ v.readyState = 0) ∧
        frag.autoLevel = true ∧ frag.level ≠ 0) ∧
      500 * frag.duration / |v.playbackRate| < requestDelayOf e frag ∧
      expectedLenOf e.levels frag = some el ∧
      (tickBSD e v < 2 * frag.duration / |v.playbackRate| ∧
        tickBSD e v <
          (el - frag.loaded) / tickLoadRate frag (requestDelayOf e frag)) ∧
      emergencyLoop
        (candDelay e.levels frag.duration (tickLoadRate frag (requestDelayOf e frag)))
        (tickBSD e v) (frag.level - 1) = some (idx, lastd) ∧
      lastd < (el - frag.loaded) / tickLoadRate frag (requestDelayOf e frag) ∧
      r = { state := { clearTimer s with
                         bwEstimator :=
                           some (est.sample (requestDelayOf e frag) frag.loaded) }
            sampled := some (requestDelayOf e frag, frag.loaded)
            abortCalled := true
            emitted := some frag
            forcedLoad := some (max 0 idx) } := by
  unfold abandonRulesCheck at h
  split at h
  · simp at h
  · rename_i frag hfrag
    split at h
    · cases Option.some_inj.mp h
      simp at hact
    · rename_i hlive
      split at h
      · unfold noopTick at h
        cases Option.some_inj.mp h
        simp at hact
      · rename_i v hmedia
        split at h
        · rename_i hcond
          split at h
          · rename_i hdelay
            split at h
            · simp at h
            · rename_i el hel
              split at h
              · rename_i habort
                split at h
                · simp at h
                · rename_i idx lastd hloop
                  split at h
                  · rename_i hsw
                    split at h
                    · simp at h
                    · rename_i est hestv
                      cases Option.some_inj.mp h
                      exact ⟨frag, v, el, est, idx, lastd, hfrag, hmedia, hestv,
                        hlive, hcond, hdelay, hel, habort, hloop, hsw, rfl⟩
                  · unfold noopTick at h
                    cases Option.some_inj.mp h
                    simp at hact
              · unfold noopTick at h
                cases Option.some_inj.mp h
                simp at hact
          · unfold noopTick at h
            cases Option.some_inj.mp h
            simp at hact
        · unfold noopTick at h
          cases Option.some_inj.mp h
          simp at hact

/-! ### Claim C3 — necessary conditions for any cancellation -/

/-- Claim C3: the abandonment check never cancels the in-flight request
(and never updates the estimator) unless all of the following hold: a
media element exists; the request was auto-selected with a nonzero level;
playback is advancing (not paused, nonzero rate) or no frame has been
produced (`readyState = 0`); the elapsed time since request start exceeds
`500 * duration / |rate|` ms; `bufferStarvationDelay < 2 * duration /
|rate|`; and the projected remaining load time (`fragLoadedDelay`) exceeds
`bufferStarvationDelay`. -/
theorem c3_abandon_necessary_conditions (s : AbrState) (e : Env)
    (frag : Frag) (r : TickResult)
    (hfrag : s.fragCurrent = some frag)
    (h : abandonRulesCheck s e = some r)
    (hact : r.abortCalled = true ∨ r.sampled.isSome = true) :
    ∃ v, e.media = some v ∧
      frag.autoLevel = true ∧ frag.level ≠ 0 ∧
      ((v.paused = false ∧ v.playbackRate ≠ 0) ∨ v.readyState = 0) ∧
      500 * frag.duration / |v.playbackRate| < requestDelayOf e frag ∧
      ∃ el, expectedLenOf e.levels frag = some el ∧
        tickBSD e v < 2 * frag.duration / |v.playbackRate| ∧
        tickBSD e v < (el - frag.loaded) / tickLoadRate frag (requestDelayOf e frag) := by
  obtain ⟨frag', v, el, est, idx, lastd, hfrag', hmedia, hest, hlive, hcond,
    hdelay, hel, habort, hloop, hsw, hr⟩ := abandon_action_shape h hact
  have hff : frag' = frag := by
    rw [hfrag] at hfrag'
    exact (Option.some_inj.mp hfrag').symm
  subst hff
  exact ⟨v, hmedia, hcond.2.1, hcond.2.2, hcond.1, hdelay, el, hel,
    habort.1, habort.2⟩

/-- Scenario C fragment: level 2 of the `[500k, 1000k, 2000k]` ladder,
duration 6 s, 800000 bytes loaded, request started at time 0. -/
def fragC : Frag :=
  { level := 2, fragType := .main, duration := 6, loaded := 800000, trequest := 0,
    loadCounter := 1, autoLevel := true,
    loader := some { stats := some { aborted := false } } }

/-- Scenario C media: playing at rate 1, position 10 s. -/
def mediaC : Media :=
  { paused := false, playbackRate := 1, readyState := 4, currentTime := 10 }

/-- Scenario C environment: buffered to 12 s (2 s ahead), clock at 4000 ms. -/
def envC : Env :=
  { levels := ladderABC, media := some mediaC, bufferEnd := 12, now := 4000,
    config := cfg0 }

/-- Scenario C state: monitoring `fragC` with estimate 1500k bps. -/
def stateC : AbrState :=
  { initialState with
      timer := 1
      bwEstimator := some (estWith 1500000)
      fragCurrent := some fragC }

/-- The tick outcome at scenario C: `loadRate = 200000` B/s,
`expectedLen = 1500000`, `fragLoadedDelay = 3.5` s,
`bufferStarvationDelay = 2` s, the fallback scan bottoms out at `-1` with
last candidate delay `75/32 ≈ 2.34`, and `2.34 < 3.5` triggers the abort
with `nextLoadLevel = max 0 (-1) = 0`. -/
def tickResC : TickResult :=
  { state := { initialState with
                 bwEstimator := some { estWith 1500000 with samples := [(4000, 800000)] }
                 fragCurrent := some fragC }
    sampled := some (4000, 800000)
    abortCalled := true
    emitted := some fragC
    forcedLoad := some 0 }

/-- The scenario C tick evaluates to the abort outcome `tickResC`. -/
theorem abandonTickC : abandonRulesCheck stateC envC = some tickResC := by
  norm_num [abandonRulesCheck, stateC, envC, fragC, mediaC, ladderABC, initialState,
    estWith, tickResC, noopTick, loaderShowsAborted, requestDelayOf, tickLoadRate,
    tickBSD, expectedLenOf, candDelay, emergencyLoop, clearTimer,
    EwmaBandWidthEstimator.sample, round_eq, cfg0]

/-- Claim C3 witness: scenario C — the tick aborts, and indeed every
necessary condition holds there. -/
theorem c3_abandon_necessary_conditions_witness :
    ∃ v, envC.media = some v ∧
      fragC.autoLevel = true ∧ fragC.level ≠ 0 ∧
      ((v.paused = false ∧ v.playbackRate ≠ 0) ∨ v.readyState = 0) ∧
      500 * fragC.duration / |v.playbackRate| < requestDelayOf envC fragC ∧
      ∃ el, expectedLenOf envC.levels fragC = some el ∧
        tickBSD envC v < 2 * fragC.duration / |v.playbackRate| ∧
        tickBSD envC v <
          (el - fragC.loaded) / tickLoadRate fragC (requestDelayOf envC fragC) :=
  c3_abandon_necessary_conditions stateC envC fragC tickResC rfl abandonTickC
    (Or.inl rfl)

/-! ### Claim C4 — fallback-level search and switch decision on abort -/

/-- Claim C4: once the abort condition holds, the fallback search scans
indices from `currentLevel - 1` down to `0` computing `candidateDelay` and
stops at the first (highest) index with `candidateDelay <
bufferStarvationDelay`; with no match the loop variable bottoms out at
`-1`; the switch — estimator sample of (elapsed, bytes loaded), request
abort, monitor disarm, abandonment event with the original request, and
`nextLoadLevel = max 0 exit` (the clamp applied only after the compare) —
happens if and only if the candidate delay computed at the loop's natural
exit index is strictly less than `fragLoadedDelay`. -/
theorem c4_fallback_search (s : AbrState) (e : Env) (frag : Frag) (v : Media)
    (el : ℚ) (r : TickResult)
    (hfrag : s.fragCurrent = some frag)
    (hlive : ¬(frag.loader.isNone = true ∨
      (frag.loader.map loaderShowsAborted).getD false = true))
    (hmedia : e.media = some v)
    (hcond : ((v.paused = false ∧ v.playbackRate ≠ 0) ∨ v.readyState = 0) ∧
      frag.autoLevel = true ∧ frag.level ≠ 0)
    (hdelay : 500 * frag.duration / |v.playbackRate| < requestDelayOf e frag)
    (hel : expectedLenOf e.levels frag = some el)
    (habort : tickBSD e v < 2 * frag.duration / |v.playbackRate| ∧
      tickBSD e v < (el - frag.loaded) / tickLoadRate frag (requestDelayOf e frag))
    (h : abandonRulesCheck s e = some r) :
    ∃ idx lastd,
      emergencyLoop
        (candDelay e.levels frag.duration (tickLoadRate frag (requestDelayOf e frag)))
        (tickBSD e v) (frag.level - 1) = some (idx, lastd) ∧
      (-1 ≤ idx ∧ idx ≤ ((frag.level - 1 : ℕ) : Int)) ∧
      (0 ≤ idx →
        candDelay e.levels frag.duration (tickLoadRate frag (requestDelayOf e frag))
          idx.toNat = some lastd ∧ lastd < tickBSD e v) ∧
      (idx = -1 →
        candDelay e.levels frag.duration (tickLoadRate frag (requestDelayOf e frag))
          0 = some lastd ∧ ¬lastd < tickBSD e v) ∧
      (∀ j : ℕ, j ≤ frag.level - 1 → idx < (j : Int) →
        ∃ dj, candDelay e.levels frag.duration
          (tickLoadRate frag (requestDelayOf e frag)) j = some dj ∧
          ¬dj < tickBSD e v) ∧
      (r.abortCalled = true ↔
        lastd < (el - frag.loaded) / tickLoadRate frag (requestDelayOf e frag)) ∧
      (r.abortCalled = true →
        r.forcedLoad = some (max 0 idx) ∧
        r.sampled = some (requestDelayOf e frag, frag.loaded) ∧
        r.state.timer = 0 ∧
        (∃ est, s.bwEstimator = some est ∧
          r.state.bwEstimator =
            some (est.sample (requestDelayOf e frag) frag.loaded)) ∧
        r.emitted = some frag) ∧
      (r.abortCalled = false →
        r.state = s ∧ r.sampled = none ∧ r.emitted = none ∧ r.forcedLoad = none) := by
  rcases hloop : emergencyLoop
      (candDelay e.levels frag.duration (tickLoadRate frag (requestDelayOf e frag)))
      (tickBSD e v) (frag.level - 1) with _ | p
  · exfalso
    unfold abandonRulesCheck at h
    simp only [hfrag, hmedia, hel, hloop, if_neg hlive, if_pos hcond,
      if_pos hdelay, if_pos habort] at h
    exact Option.noConfusion h
  · obtain ⟨idx, lastd⟩ := p
    obtain ⟨hb, hbrk, hbot, habove⟩ := emergencyLoop_spec hloop
    by_cases hsw : lastd < (el - frag.loaded) / tickLoadRate frag (requestDelayOf e frag)
    · rcases hestv : s.bwEstimator with _ | est
      · exfalso
        unfold abandonRulesCheck at h
        simp only [hfrag, hmedia, hel, hloop, hestv, if_neg hlive, if_pos hcond,
          if_pos hdelay, if_pos habort, if_pos hsw] at h
        exact Option.noConfusion h
      · have heval := abandonRulesCheck_abort_eval hfrag hlive hmedia hcond hdelay
          hel habort hloop hsw hestv
        rw [heval] at h
        cases Option.some_inj.mp h
        refine ⟨idx, lastd, by simp [hloop], hb, hbrk, hbot, habove,
          by simp [hsw], ?_, ?_⟩
        · intro _
          exact ⟨rfl, rfl, by simp, ⟨est, by simp [hestv], by simp⟩, rfl⟩
        · intro hx
          simp at hx
    · have heval := abandonRulesCheck_noabort_eval hfrag hlive hmedia hcond hdelay
        hel habort hloop hsw
      rw [heval] at h
      unfold noopTick at h
      cases Option.some_inj.mp h
      refine ⟨idx, lastd, by simp [hloop], hb, hbrk, hbot, habove,
        by simp [hsw], ?_, ?_⟩
      · intro hx
        simp at hx
      · intro _
        exact ⟨rfl, rfl, rfl, rfl⟩

/-- Claim C4 witness: scenario C — the search from level 1 finds no
candidate below the 2 s starvation delay (candidate delays `75/16` and
`75/32`), bottoms out at `-1` with last delay `75/32 < 3.5 =
fragLoadedDelay`, so the switch fires with `nextLoadLevel = 0`. -/
theorem c4_fallback_search_witness :
    ∃ idx lastd,
      emergencyLoop
        (candDelay envC.levels fragC.duration
          (tickLoadRate fragC (requestDelayOf envC fragC)))
        (tickBSD envC mediaC) (fragC.level - 1) = some (idx, lastd) ∧
      (-1 ≤ idx ∧ idx ≤ ((fragC.level - 1 : ℕ) : Int)) ∧
      (0 ≤ idx →
        candDelay envC.levels fragC.duration
          (tickLoadRate fragC (requestDelayOf envC fragC)) idx.toNat =
            some lastd ∧ lastd < tickBSD envC mediaC) ∧
      (idx = -1 →
        candDelay envC.levels fragC.duration
          (tickLoadRate fragC (requestDelayOf envC fragC)) 0 = some lastd ∧
          ¬lastd < tickBSD envC mediaC) ∧
      (∀ j : ℕ, j ≤ fragC.level - 1 → idx < (j : Int) →
        ∃ dj, candDelay envC.levels fragC.duration
          (tickLoadRate fragC (requestDelayOf envC fragC)) j = some dj ∧
          ¬dj < tickBSD envC mediaC) ∧
      (tickResC.abortCalled = true ↔
        lastd < (1500000 - fragC.loaded) /
          tickLoadRate fragC (requestDelayOf envC fragC)) ∧
      (tickResC.abortCalled = true →
        tickResC.forcedLoad = some (max 0 idx) ∧
        tickResC.sampled = some (requestDelayOf envC fragC, fragC.loaded) ∧
        tickResC.state.timer = 0 ∧
        (∃ est, stateC.bwEstimator = some est ∧
          tickResC.state.bwEstimator =
            some (est.sample (requestDelayOf envC fragC) fragC.loaded)) ∧
        tickResC.emitted = some fragC) ∧
      (tickResC.abortCalled = false →
        tickResC.state = stateC ∧ tickResC.sampled = none ∧
        tickResC.emitted = none ∧ tickResC.forcedLoad = none) :=
  c4_fallback_search stateC envC fragC mediaC 1500000 tickResC rfl
    (by norm_num [fragC, loaderShowsAborted])
    rfl
    (by norm_num [fragC, mediaC])
    (by norm_num [requestDelayOf, envC, fragC, mediaC])
    (by norm_num [expectedLenOf, envC, ladderABC, fragC, round_eq])
    (by norm_num [tickBSD, tickLoadRate, requestDelayOf, envC, fragC, mediaC])
    abandonTickC

/-! ### Claim C5 — monotonicity of selection in the bandwidth estimate -/

/-- With a positive, larger estimate, any level passing the
comfortable-case test still passes it (fetch times shrink). -/
theorem comfP_mono {levels : List Level} {duration b1 b2 aft : ℚ}
    (hpos : 0 < b1) (hle : b1 ≤ b2) (hdur : 0 ≤ duration)
    (hbr : ∀ l ∈ levels, 0 ≤ l.bitrate) (j : ℕ)
    (h : comfP levels duration b1 aft j = some true) :
    comfP levels duration b2 aft j = some true := by
  unfold comfP at h ⊢
  cases hl : levels.get? j with
  | none =>
    rw [hl] at h
    simp at h
  | some l =>
    rw [hl] at h
    simp only [Option.map_some', Option.some_inj] at h ⊢
    rw [if_neg (ne_of_gt hpos)] at h
    rw [if_neg (ne_of_gt (lt_of_lt_of_le hpos hle))]
    simp only [decide_eq_true_eq] at h ⊢
    have hbl : 0 ≤ l.bitrate := hbr l (List.get?_mem hl)
    calc l.bitrate * duration / b2 ≤ l.bitrate * duration / b1 :=
          div_le_div_of_nonneg_left (mul_nonneg hbl hdur) hpos hle
      _ < aft := h

/-- Whether the comfortable-case test throws depends only on the index
being in range, not on the estimate or the deadline. -/
theorem comfP_isSome_congr (levels : List Level) (duration b1 b2 aft1 aft2 : ℚ)
    (j : ℕ) :
    (comfP levels duration b2 aft2 j).isSome =
      (comfP levels duration b1 aft1 j).isSome := by
  unfold comfP
  cases levels.get? j <;> rfl

/-- The two-level ladder of the C5 counterexample. -/
def ladder5 : List Level :=
  [{ bitrate := 100000, details := some { live := false } },
   { bitrate := 1000000, details := some { live := false } }]

/-- A monitored fragment of duration 10 s at level 1 of `ladder5`. -/
def frag5 : Frag :=
  { level := 1, fragType := .main, duration := 10, loaded := 0, trequest := 0,
    loadCounter := 1, autoLevel := true,
    loader := some { stats := some { aborted := false } } }

/-- Counterexample environment: buffered to 21 s at position 0, rate 1,
so `availableFetchTime = 21 - 20 = 1 > 0`. -/
def env5 : Env :=
  { levels := ladder5, media := some mediaPlaying, bufferEnd := 21, now := 0,
    config := cfg0 }

/-- Counterexample state with the lower estimate, 1000k bps. -/
def state5lo : AbrState :=
  { initialState with
      timer := 1
      bwEstimator := some (estWith 1000000)
      fragCurrent := some frag5 }

/-- Counterexample state with the higher estimate, 5000k bps. -/
def state5hi : AbrState :=
  { state5lo with bwEstimator := some (estWith 5000000) }

/-- Claim C5 counterexample: with ladder `[100k, 1000k]` bps, duration
10 s and `availableFetchTime = 1`, estimate 1000k bps makes the
comfortable scan fail everywhere (fetch times 1 and 10) and the recovery
scan return index 1, while the larger estimate 5000k bps makes the
comfortable scan succeed at index 0 (fetch time 0.2 < 1) — so raising the
estimate from 1000k to 5000k lowers the selected index from 1 to 0,
refuting monotonicity of the full query in the estimate. -/
theorem c5_counterexample :
    (estWith 1000000).estimateVal ≤ (estWith 5000000).estimateVal ∧
    nextAutoLevel state5lo env5 = some 1 ∧
    nextAutoLevel state5hi env5 = some 0 := by
  refine ⟨by norm_num [estWith], ?_, ?_⟩ <;>
    norm_num [nextAutoLevel, state5lo, state5hi, env5, frag5, ladder5, estWith,
      mediaPlaying, initialState, maxAutoLevelOf, availableFetchTimeOf,
      bufferStarvationDelayOf, posOf, playbackRateOf, scanTopE, scanDownE, comfP,
      recovP, EwmaBandWidthEstimator.getEstimate]

/-- Claim C5, amended: selection is monotonic in the estimate on the
comfortable case — for a fixed ladder, cap, fragment and buffer state
(forced level unset), if the query under the smaller positive estimate
selects its level through the comfortable-case scan (hypothesis `hscan1`,
which in particular certifies that the scan ran without throwing), then
the query under any larger estimate returns a level index at least as
high.  (The full claim is false: a larger estimate can move the query
from the more permissive recovery scan into the comfortable scan and
return a lower index, as `c5_counterexample` shows.) -/
theorem c5_monotone_comfortable (s1 s2 : AbrState) (e : Env) (frag : Frag)
    (est1 est2 : EwmaBandWidthEstimator) (k i : ℕ)
    (hforced1 : s1.nextAutoLevelForced = -1)
    (hforced2 : s2.nextAutoLevelForced = -1)
    (hest1 : s1.bwEstimator = some est1)
    (hest2 : s2.bwEstimator = some est2)
    (hfrag1 : s1.fragCurrent = some frag)
    (hfrag2 : s2.fragCurrent = some frag)
    (hmal1 : maxAutoLevelOf s1 e.levels = (k : Int))
    (hmal2 : maxAutoLevelOf s2 e.levels = (k : Int))
    (hpos : 0 < est1.estimateVal)
    (hle : est1.estimateVal ≤ est2.estimateVal)
    (hdur : 0 ≤ frag.duration)
    (hbr : ∀ l ∈ e.levels, 0 ≤ l.bitrate)
    (haft : 0 < availableFetchTimeOf e frag)
    (hscan1 : scanDownE (comfP e.levels frag.duration est1.getEstimate
      (availableFetchTimeOf e frag)) k = some (some i)) :
    ∃ j : ℕ, i ≤ j ∧
      nextAutoLevel s1 e = some (i : Int) ∧
      nextAutoLevel s2 e = some (j : Int) := by
  obtain ⟨j, hij, hscan2⟩ :=
    scanDownE_mono
      (fun j => comfP_isSome_congr e.levels frag.duration est1.getEstimate
        est2.getEstimate (availableFetchTimeOf e frag) (availableFetchTimeOf e frag) j)
      (comfP_mono hpos hle hdur hbr) hscan1
  have htop1 : scanTopE (comfP e.levels frag.duration est1.getEstimate
      (availableFetchTimeOf e frag)) (maxAutoLevelOf s1 e.levels) =
      some (some i) := by
    rw [hmal1]
    unfold scanTopE
    rw [if_neg (by omega), Int.toNat_natCast]
    exact hscan1
  have htop2 : scanTopE (comfP e.levels frag.duration est2.getEstimate
      (availableFetchTimeOf e frag)) (maxAutoLevelOf s2 e.levels) =
      some (some j) := by
    rw [hmal2]
    unfold scanTopE
    rw [if_neg (by omega), Int.toNat_natCast]
    exact hscan2
  refine ⟨j, hij, ?_, ?_⟩
  · simp only [nextAutoLevel, hforced1, hest1, hfrag1, if_pos haft, htop1]
    simp
  · simp only [nextAutoLevel, hforced2, hest2, hfrag2, if_pos haft, htop2]
    simp

/-- Scenario A state with the estimate raised to 3000k bps. -/
def state5up : AbrState :=
  { stateA with bwEstimator := some (estWith 3000000) }

/-- Claim C5 witness (amended form): scenario A with estimates 1500k and
3000k bps — the lower estimate selects index 1 through the comfortable
scan, the higher one moves up to index 2. -/
theorem c5_monotone_comfortable_witness :
    ∃ j : ℕ, 1 ≤ j ∧
      nextAutoLevel stateA envA = some ((1 : ℕ) : Int) ∧
      nextAutoLevel state5up envA = some ((j : ℕ) : Int) :=
  c5_monotone_comfortable stateA state5up envA fragA (estWith 1500000)
    (estWith 3000000) 2 1 rfl rfl rfl rfl rfl rfl
    (by norm_num [maxAutoLevelOf, stateA, envA, ladderABC, initialState])
    (by norm_num [maxAutoLevelOf, state5up, stateA, envA, ladderABC, initialState])
    (by norm_num [estWith])
    (by norm_num [estWith])
    (by norm_num [fragA])
    (by
      intro l hl
      fin_cases hl <;> norm_num [ladderABC, envA])
    (by norm_num [availableFetchTimeOf, bufferStarvationDelayOf, posOf,
      playbackRateOf, envA, fragA, mediaPlaying])
    (by norm_num [scanDownE, comfP, envA, fragA, ladderABC, estWith,
      EwmaBandWidthEstimator.getEstimate, availableFetchTimeOf,
      bufferStarvationDelayOf, posOf, playbackRateOf, mediaPlaying])

/-! ### Claim C6 — stale-reference invariant -/

/-- Claim C6 counterexample: completing the monitored request disarms the
timer but the engine still holds the `fragCurrent` reference to the
completed request — `fragCurrent` is never cleared on completion,
refuting the "no longer holds a reference" half of the claim. -/
theorem c6_counterexample :
    onFragLoaded stateA envA fragA statsClean = some stateDoneA ∧
    stateDoneA.fragCurrent = some fragA ∧ stateDoneA.timer = 0 := by
  refine ⟨?_, rfl, rfl⟩
  norm_num [onFragLoaded, stateA, initialState, fragA, statsClean, envA,
    EwmaBandWidthEstimator.sample, clearTimer, stateDoneA, estWith]

/-- Claim C6, amended: on every transition that completes (`main`
`FRAG_LOADED`), errors (`FRAG_LOAD_ERROR` / `FRAG_LOAD_TIMEOUT`) or
emergency-aborts the monitored request, the monitoring timer is disarmed;
the `fragCurrent` reference, however, is retained (only overwritten by the
next request), so the disarmed monitor is what prevents the stale
reference from being acted on. -/
theorem c6_amended_disarm_on_transitions (s : AbrState) (e : Env) (frag : Frag)
    (stats : LoadStats) :
    (∀ s', frag.fragType = FragType.main →
      onFragLoaded s e frag stats = some s' → s'.timer = 0) ∧
    (onError s ErrorKind.fragLoadError).timer = 0 ∧
    (onError s ErrorKind.fragLoadTimeout).timer = 0 ∧
    (∀ r, abandonRulesCheck s e = some r → r.abortCalled = true →
      r.state.timer = 0) := by
  refine ⟨?_, by simp [onError], by simp [onError], ?_⟩
  · intro s' hmain h
    simp only [onFragLoaded, if_pos hmain] at h
    obtain ⟨s1, _, hs'⟩ := Option.map_eq_some'.mp h
    rw [← hs']
    simp
  · intro r h hab
    obtain ⟨frag', v, el, est, idx, lastd, _, _, _, _, _, _, _, _, _, _, hr⟩ :=
      abandon_action_shape h (Or.inl hab)
    rw [hr]
    simp

/-- The state after `fragC` completes from `stateC` in `envC` (the
completion sample has elapsed time 4000 ms and `statsClean.loaded = 100`
bytes). -/
def stateDoneC : AbrState :=
  { lastLoadedFragLevel := 2, autoLevelCapping := -1, nextAutoLevelForced := -1,
    timer := 0,
    bwEstimator := some { estWith 1500000 with samples := [(4000, 100)] },
    fragCurrent := some fragC }

/-- Completion of `fragC` from `stateC` evaluates to `stateDoneC`. -/
theorem onFragLoadedC :
    onFragLoaded stateC envC fragC statsClean = some stateDoneC := by
  norm_num [onFragLoaded, stateC, initialState, fragC, statsClean, envC,
    EwmaBandWidthEstimator.sample, clearTimer, stateDoneC, estWith]

/-- Claim C6 witness (amended form): at scenario C, all three
transitions — completion, load error/timeout, and the emergency abort —
leave the timer disarmed. -/
theorem c6_amended_disarm_on_transitions_witness :
    stateDoneC.timer = 0 ∧
    (onError stateC ErrorKind.fragLoadError).timer = 0 ∧
    (onError stateC ErrorKind.fragLoadTimeout).timer = 0 ∧
    tickResC.state.timer = 0 := by
  have h := c6_amended_disarm_on_transitions stateC envC fragC statsClean
  exact ⟨h.1 stateDoneC rfl onFragLoadedC, h.2.1, h.2.2.1,
    h.2.2.2 tickResC abandonTickC rfl⟩

/-! ### Claim C10 — armed monitor and the definedness of estimator/fragment -/

theorem onFragLoading_ok_fields {s : AbrState} {e : Env} {frag : Frag}
    {s' : AbrState} (h : onFragLoading s e frag = .ok s') :
    s' = s ∨
    (s'.timer = (if s.timer = 0 then 1 else s.timer) ∧
      s'.bwEstimator.isSome = true ∧ s'.fragCurrent.isSome = true) := by
  simp only [onFragLoading] at h
  split at h
  · right
    split at h
    · rename_i est hbe
      rw [Except.ok.injEq] at h
      subst h
      refine ⟨?_, by simp [hbe], rfl⟩
      by_cases ht : s.timer = 0 <;> simp [ht]
    · split at h
      · simp at h
      · rename_i lvl hlvl
        split at h
        · simp at h
        · rename_i det hdet
          rw [Except.ok.injEq] at h
          subst h
          refine ⟨?_, by simp, rfl⟩
          by_cases ht : s.timer = 0 <;> simp [ht]
  · left
    rw [Except.ok.injEq] at h
    exact h.symm

theorem onFragLoading_error_fields {s : AbrState} {e : Env} {frag : Frag}
    {s' : AbrState} (h : onFragLoading s e frag = .error s') :
    s' = (if s.timer = 0 then { s with timer := 1 } else s) ∧
    s.bwEstimator = none := by
  simp only [onFragLoading] at h
  split at h
  · split at h
    · simp at h
    · rename_i hbe
      have hbe' : s.bwEstimator = none := by
        by_cases ht : s.timer = 0
        · rw [if_pos ht] at hbe
          exact hbe
        · rw [if_neg ht] at hbe
          exact hbe
      split at h
      · rw [Except.error.injEq] at h
        exact ⟨h.symm, hbe'⟩
      · split at h
        · rw [Except.error.injEq] at h
          exact ⟨h.symm, hbe'⟩
        · simp at h
  · simp at h

theorem onFragLoaded_fields {s : AbrState} {e : Env} {frag : Frag}
    {stats : LoadStats} {s' : AbrState}
    (h : onFragLoaded s e frag stats = some s') :
    s' = s ∨
    (s'.timer = 0 ∧ s'.fragCurrent = s.fragCurrent ∧
      (s'.bwEstimator = s.bwEstimator ∨ s'.bwEstimator.isSome = true)) := by
  unfold onFragLoaded at h
  split at h
  · obtain ⟨s1, hs1, hs'⟩ := Option.map_eq_some'.mp h
    right
    rw [← hs']
    refine ⟨by simp, ?_, ?_⟩
    · split at hs1
      · split at hs1
        · simp at hs1
        · cases Option.some_inj.mp hs1
          simp
      · cases Option.some_inj.mp hs1
        simp
    · split at hs1
      · split at hs1
        · simp at hs1
        · cases Option.some_inj.mp hs1
          right
          simp
      · cases Option.some_inj.mp hs1
        left
        simp
  · left
    exact (Option.some_inj.mp h).symm

theorem onError_fields (s : AbrState) (k : ErrorKind) :
    onError s k = s ∨ (onError s k).timer = 0 := by
  cases k with
  | fragLoadError => right; simp [onError]
  | fragLoadTimeout => right; simp [onError]
  | otherKind => left; rfl

theorem abandon_state_cases {s : AbrState} {e : Env} {r : TickResult}
    (h : abandonRulesCheck s e = some r) :
    r.state = s ∨
    (r.state.timer = 0 ∧ r.state.fragCurrent = s.fragCurrent ∧
      (r.state.bwEstimator = s.bwEstimator ∨
        r.state.bwEstimator.isSome = true)) := by
  unfold abandonRulesCheck at h
  split at h
  · simp at h
  · split at h
    · cases Option.some_inj.mp h
      right
      exact ⟨by simp, by simp, Or.inl (by simp)⟩
    · split at h
      · unfold noopTick at h
        cases Option.some_inj.mp h
        left
        rfl
      · split at h
        · split at h
          · split at h
            · simp at h
            · split at h
              · split at h
                · simp at h
                · split at h
                  · split at h
                    · simp at h
                    · cases Option.some_inj.mp h
                      right
                      exact ⟨by simp, by simp, Or.inr (by simp)⟩
                  · unfold noopTick at h
                    cases Option.some_inj.mp h
                    left
                    rfl
              · unfold noopTick at h
                cases Option.some_inj.mp h
                left
                rfl
          · unfold noopTick at h
            cases Option.some_inj.mp h
            left
            rfl
        · unfold noopTick at h
          cases Option.some_inj.mp h
          left
          rfl

/-- A `main` fragment whose level index lies outside the three-entry
ladder, so the lazy estimator initialisation reads
`hls.levels[7].details` of `undefined` and throws. -/
def fragOut : Frag :=
  { fragA with level := 7 }

/-- The state the throwing arming step leaves behind: interval timer
armed, estimator and current fragment still undefined. -/
def stateBroken : AbrState :=
  { initialState with timer := 1 }

/-- Claim C10 counterexample: the source arms the interval timer *before*
the lazy estimator initialisation, so when that initialisation throws
(here: a `main` fragment at level 7 of a 3-level ladder) the engine is
left in a reachable state whose timer is armed while both `bwEstimator`
and `fragCurrent` are still undefined — refuting the claimed invariant
that an armed timer implies both are defined. -/
theorem c10_counterexample :
    Reachable stateBroken ∧ stateBroken.timer ≠ 0 ∧
    stateBroken.bwEstimator = none ∧ stateBroken.fragCurrent = none := by
  refine ⟨Reachable.step Reachable.init
      (Step.fragLoadingThrew envA fragOut ?_),
    by norm_num [stateBroken, initialState], rfl, rfl⟩
  norm_num [onFragLoading, initialState, fragOut, fragA, envA, ladderABC,
    stateBroken]

theorem reachableMonitorFacts (s : AbrState) (hreach : Reachable s) :
    s.timer ≤ 1 ∧
    (s.fragCurrent.isSome = true → s.bwEstimator.isSome = true) ∧
    (s.timer ≠ 0 →
      (s.bwEstimator.isSome = true ∧ s.fragCurrent.isSome = true) ∨
      (s.bwEstimator = none ∧ s.fragCurrent = none)) := by
  induction hreach with
  | init =>
    exact ⟨by simp [initialState], by simp [initialState],
      by simp [initialState]⟩
  | step hr hstep ih =>
    rename_i s0 s1
    obtain ⟨ih1, ih2, ih3⟩ := ih
    cases hstep with
    | fragLoading e frag h =>
      rcases onFragLoading_ok_fields h with heq | ⟨ht, hbe, hfc⟩
      · rw [heq]
        exact ⟨ih1, ih2, ih3⟩
      · refine ⟨?_, fun _ => hbe, fun _ => Or.inl ⟨hbe, hfc⟩⟩
        rw [ht]
        split
        · omega
        · exact ih1
    | fragLoadingThrew e frag h =>
      obtain ⟨heq, hbe⟩ := onFragLoading_error_fields h
      have hfc : s0.fragCurrent = none := by
        cases hc : s0.fragCurrent with
        | none => rfl
        | some f =>
          have h2 := ih2 (by rw [hc]; rfl)
          rw [hbe] at h2
          simp at h2
      subst heq
      by_cases ht : s0.timer = 0
      · rw [if_pos ht]
        exact ⟨by simp, by simp [hbe, hfc],
          fun _ => Or.inr ⟨by simp [hbe], by simp [hfc]⟩⟩
      · rw [if_neg ht]
        exact ⟨ih1, ih2, fun _ => Or.inr ⟨hbe, hfc⟩⟩
    | fragLoaded e frag stats h =>
      rcases onFragLoaded_fields h with heq | ⟨ht, hfc, hbe⟩
      · rw [heq]
        exact ⟨ih1, ih2, ih3⟩
      · refine ⟨by omega, ?_, fun hn => (hn ht).elim⟩
        intro hsome
        rw [hfc] at hsome
        rcases hbe with hb | hb
        · rw [hb]
          exact ih2 hsome
        · exact hb
    | fragLoadedThrew e frag stats => exact ⟨ih1, ih2, ih3⟩
    | errorEv k =>
      cases k with
      | fragLoadError =>
        exact ⟨by simp [onError], by simpa [onError] using ih2,
          fun hn => absurd (by simp [onError]) hn⟩
      | fragLoadTimeout =>
        exact ⟨by simp [onError], by simpa [onError] using ih2,
          fun hn => absurd (by simp [onError]) hn⟩
      | otherKind => exact ⟨ih1, ih2, ih3⟩
    | tick e r hner h =>
      rcases abandon_state_cases h with heq | ⟨ht, hfc, hbe⟩
      · rw [heq]
        exact ⟨ih1, ih2, ih3⟩
      · refine ⟨by omega, ?_, fun hn => (hn ht).elim⟩
        intro hsome
        rw [hfc] at hsome
        rcases hbe with hb | hb
        · rw [hb]
          exact ih2 hsome
        · exact hb
    | tickThrew e hner hnone => exact ⟨ih1, ih2, ih3⟩
    | setNext n => exact ⟨ih1, ih2, ih3⟩
    | setCap n => exact ⟨ih1, ih2, ih3⟩

/-- Claim C10, amended: in every reachable state in which the monitor
timer is armed, either the bandwidth estimator and the current-fragment
reference are both defined (the normal case, whenever every arming step
completed its lazy initialisation without throwing), or — after an arming
step whose lazy estimator initialisation threw — both are still
undefined.  The timer count never exceeds one, arming while already armed
leaves the count unchanged (no second interval), and disarming an idle
monitor is a no-op. -/
theorem c10_monitor_invariant (s : AbrState) (hreach : Reachable s) :
    s.timer ≤ 1 ∧
    (s.timer ≠ 0 →
      (s.bwEstimator.isSome = true ∧ s.fragCurrent.isSome = true) ∨
      (s.bwEstimator = none ∧ s.fragCurrent = none)) ∧
    (∀ e frag, s.timer ≠ 0 →
      (exceptState (onFragLoading s e frag)).timer = s.timer) ∧
    (s.timer = 0 → clearTimer s = s) := by
  obtain ⟨h1, _, h3⟩ := reachableMonitorFacts s hreach
  refine ⟨h1, h3, ?_, fun ht => clearTimer_idle s ht⟩
  intro e frag hne
  rcases hr : onFragLoading s e frag with s' | s'
  · obtain ⟨heq, _⟩ := onFragLoading_error_fields hr
    simp only [exceptState]
    rw [heq, if_neg hne]
  · rcases onFragLoading_ok_fields hr with heq | ⟨ht, _, _⟩
    · simp [exceptState, heq]
    · simp only [exceptState]
      rw [ht, if_neg hne]

/-- The state reached from the constructor state by the scenario A `main`
request beginning to load: timer armed, estimator lazily constructed from
the VoD configuration, fragment recorded. -/
def stateArmed : AbrState :=
  { initialState with
      timer := 1
      bwEstimator := some (estWith 500000)
      fragCurrent := some fragA }

/-- Claim C10 witness (amended form): `stateArmed` is reachable
(constructor state followed by a normal `onFragLoading` of `fragA`), its
timer is armed, and the invariant and both timer laws hold there. -/
theorem c10_monitor_invariant_witness :
    stateArmed.timer ≤ 1 ∧
    (stateArmed.timer ≠ 0 →
      (stateArmed.bwEstimator.isSome = true ∧
        stateArmed.fragCurrent.isSome = true) ∨
      (stateArmed.bwEstimator = none ∧ stateArmed.fragCurrent = none)) ∧
    (∀ e frag, stateArmed.timer ≠ 0 →
      (exceptState (onFragLoading stateArmed e frag)).timer = stateArmed.timer) ∧
    (stateArmed.timer = 0 → clearTimer stateArmed = stateArmed) :=
  c10_monitor_invariant stateArmed
    (Reachable.step Reachable.init
      (Step.fragLoading envA fragA
        (by norm_num [onFragLoading, initialState, fragA, envA, ladderABC, cfg0,
          stateArmed, estWith])))

end Abr
